import Mathlib

/-!
Shallow embedding of the identicon codec from `identicons.go`
(`OptimizedIdenticon` and its helpers), together with theorems checking
the specified behaviour of the bit accessors, the colour-index selectors,
the symmetric 5×5 pixel pattern, the indexed raster compositor and the
`Face:` header writer.

Bytes of the digest are modelled as natural numbers; indices are modelled
as `Int` where the Go code takes an `int` (so that behaviour on negative
indices is captured), and a Go slice-index panic is modelled by `Option`
(`none` = out-of-range indexing panic).
-/

namespace Identicons

/-- A digest: the `source` byte slice of `OptimizedIdenticon`. -/
abbrev Digest := List Nat

/-- Embedding of `getBit`: returns the n-th bit (0-indexed) from `source`.
Mirrors the Go guards: empty source or negative `n` gives `false`, an
out-of-range byte index gives `false`, otherwise `(source[n/8] >> (n%8)) & 1 == 1`. -/
def getBit (source : Digest) (n : Int) : Bool :=
  if source.length = 0 ∨ n < 0 then false
  else
    if source.length ≤ n.toNat / 8 then false
    else ((source.getD (n.toNat / 8) 0) >>> (n.toNat % 8)) &&& 1 == 1

/-- Embedding of `getByte`: returns the n-th byte, wrapping with Go's
truncated `%` (`Int.tmod`).  A negative slice index — possible because Go's
`%` of a negative operand is negative — panics, modelled by `none`. -/
def getByte (source : Digest) (n : Int) : Option Nat :=
  if source.length = 0 then some 0
  else
    if 0 ≤ Int.tmod n source.length ∧ Int.tmod n source.length < (source.length : Int) then
      some (source.getD (Int.tmod n source.length).toNat 0)
    else none

/-- Embedding of `getColorIndices`: colour indices for the indexed version.
A digest shorter than 32 bytes yields the fixed defaults `(0, 1, 2)`;
otherwise the primary index comes from bits 248–251, the secondary index
from bits 244–247 (each little-bit-first, reduced mod 16) and the
background choice from bits 252–253 reduced mod 3. -/
def getColorIndices (source : Digest) : Nat × Nat × Nat :=
  if source.length < 32 then (0, 1, 2)
  else
    ((List.range 4).foldl
        (fun (acc : Nat) (i : Nat) => if getBit source (248 + (i : Int)) then acc ||| (1 <<< i) else acc) 0 % 16,
     (List.range 4).foldl
        (fun (acc : Nat) (i : Nat) => if getBit source (244 + (i : Int)) then acc ||| (1 <<< i) else acc) 0 % 16,
     (List.range 2).foldl
        (fun (acc : Nat) (i : Nat) => if getBit source (252 + (i : Int)) then acc ||| (1 <<< i) else acc) 0 % 3)

/-- The (row, col) pairs visited by each half-grid loop of
`generatePixelPattern`: rows 0..4, columns 0..2, row-major. -/
def halfCells : List (Nat × Nat) :=
  (List.range 5).flatMap fun row => (List.range 3).map fun col => (row, col)

/-- One half-grid filling pass of `generatePixelPattern`: each visited cell
`(row, col)` and its mirror `(row, 4-col)` are set to the digest bit at the
running bit index, which advances by one per visited cell. -/
def fillHalfGrid (source : Digest) (bitIndex : Nat) (grid : List Bool) :
    List (Nat × Nat) → List Bool
  | [] => grid
  | rc :: rest =>
      fillHalfGrid source (bitIndex + 1)
        ((grid.set (rc.1 * 5 + rc.2) (getBit source (bitIndex : Int))).set
          (rc.1 * 5 + (4 - rc.2)) (getBit source (bitIndex : Int))) rest

/-- Embedding of `generatePixelPattern`: the 5×5 symmetric pixel grids,
each stored row-major as a 25-element list.  The primary grid uses bits
0–14; the secondary grid continues with bits 15–29 (the running bit index
reaches 15 after the first 5×3 pass). -/
def generatePixelPattern (source : Digest) : List Bool × List Bool :=
  (fillHalfGrid source 0 (List.replicate 25 false) halfCells,
   fillHalfGrid source 15 (List.replicate 25 false) halfCells)

/-- Row-major cell lookup in a 5×5 grid, as the Go code's `grid[row*5+col]`. -/
def gridGet (grid : List Bool) (row col : Nat) : Bool :=
  grid.getD (row * 5 + col) false

theorem halfCells_eq :
    halfCells = [(0, 0), (0, 1), (0, 2), (1, 0), (1, 1), (1, 2), (2, 0), (2, 1), (2, 2),
      (3, 0), (3, 1), (3, 2), (4, 0), (4, 1), (4, 2)] := by
  rfl

theorem generatePixelPattern_fst (source : Digest) :
    (generatePixelPattern source).1 =
      [getBit source 0, getBit source 1, getBit source 2, getBit source 1, getBit source 0,
       getBit source 3, getBit source 4, getBit source 5, getBit source 4, getBit source 3,
       getBit source 6, getBit source 7, getBit source 8, getBit source 7, getBit source 6,
       getBit source 9, getBit source 10, getBit source 11, getBit source 10, getBit source 9,
       getBit source 12, getBit source 13, getBit source 14, getBit source 13, getBit source 12] := by
  simp only [generatePixelPattern, halfCells_eq, fillHalfGrid]
  norm_num [List.replicate, List.set_cons_succ, List.set_cons_zero]

theorem generatePixelPattern_snd (source : Digest) :
    (generatePixelPattern source).2 =
      [getBit source 15, getBit source 16, getBit source 17, getBit source 16, getBit source 15,
       getBit source 18, getBit source 19, getBit source 20, getBit source 19, getBit source 18,
       getBit source 21, getBit source 22, getBit source 23, getBit source 22, getBit source 21,
       getBit source 24, getBit source 25, getBit source 26, getBit source 25, getBit source 24,
       getBit source 27, getBit source 28, getBit source 29, getBit source 28, getBit source 27] := by
  simp only [generatePixelPattern, halfCells_eq, fillHalfGrid]
  norm_num [List.replicate, List.set_cons_succ, List.set_cons_zero]

theorem nibble_fold (s : Digest) (base : Int) :
    (List.range 4).foldl
        (fun (acc : Nat) (i : Nat) => if getBit s (base + (i : Int)) then acc ||| (1 <<< i) else acc) 0 =
      (if getBit s base then 1 else 0) + 2 * (if getBit s (base + 1) then 1 else 0) +
        4 * (if getBit s (base + 2) then 1 else 0) + 8 * (if getBit s (base + 3) then 1 else 0) := by
  have h : List.range 4 = [0, 1, 2, 3] := by rfl
  rw [h]
  simp only [List.foldl_cons, List.foldl_nil, Nat.cast_zero, Nat.cast_one, Nat.cast_ofNat,
    add_zero]
  cases h0 : getBit s base <;> cases h1 : getBit s (base + 1) <;>
    cases h2 : getBit s (base + 2) <;> cases h3 : getBit s (base + 3) <;>
    simp [h0, h1, h2, h3]

theorem twoBits_fold (s : Digest) (base : Int) :
    (List.range 2).foldl
        (fun (acc : Nat) (i : Nat) => if getBit s (base + (i : Int)) then acc ||| (1 <<< i) else acc) 0 =
      (if getBit s base then 1 else 0) + 2 * (if getBit s (base + 1) then 1 else 0) := by
  have h : List.range 2 = [0, 1] := by rfl
  rw [h]
  simp only [List.foldl_cons, List.foldl_nil, Nat.cast_zero, Nat.cast_one, add_zero]
  cases h0 : getBit s base <;> cases h1 : getBit s (base + 1) <;> simp [h0, h1]

theorem getColorIndices_of_short (source : Digest) (h : source.length < 32) :
    getColorIndices source = (0, 1, 2) := by
  unfold getColorIndices
  rw [if_pos h]

theorem getColorIndices_of_long (source : Digest) (h : 32 ≤ source.length) :
    getColorIndices source =
      (((if getBit source 248 then 1 else 0) + 2 * (if getBit source 249 then 1 else 0) +
          4 * (if getBit source 250 then 1 else 0) + 8 * (if getBit source 251 then 1 else 0)) % 16,
       ((if getBit source 244 then 1 else 0) + 2 * (if getBit source 245 then 1 else 0) +
          4 * (if getBit source 246 then 1 else 0) + 8 * (if getBit source 247 then 1 else 0)) % 16,
       ((if getBit source 252 then 1 else 0) + 2 * (if getBit source 253 then 1 else 0)) % 3) := by
  unfold getColorIndices
  rw [if_neg (by omega)]
  rw [nibble_fold source 248, nibble_fold source 244, twoBits_fold source 252]
  norm_num

/-- Claim C1 (amended): for a digest shorter than 32 bytes, `getColorIndices`
returns the fixed defaults primary=0, secondary=1 and background=2. -/
theorem getColorIndices_short_default (source : Digest) (h : source.length < 32) :
    getColorIndices source = (0, 1, 2) :=
  getColorIndices_of_short source h

/-- Witness for `getColorIndices_short_default` at the empty digest. -/
theorem getColorIndices_short_default_witness :
    getColorIndices ([] : Digest) = (0, 1, 2) :=
  getColorIndices_short_default [] (by decide)

/-- Counterexample for claim C1 as stated: on the empty digest (length 0
< 32) the background selector defaults to 2, not to 0. -/
theorem getColorIndices_short_not_bg_zero :
    getColorIndices ([] : Digest) ≠ (0, 1, 0) := by
  decide

/-- Claim C4: for a digest of at least 32 bytes, the primary index is the
little-bit-first value of bits 248–251 reduced mod 16, the secondary index
that of bits 244–247 reduced mod 16, and the background variant that of
bits 252–253 reduced mod 3. -/
theorem getColorIndices_long (source : Digest) (h : 32 ≤ source.length) :
    getColorIndices source =
      (((if getBit source 248 then 1 else 0) + 2 * (if getBit source 249 then 1 else 0) +
          4 * (if getBit source 250 then 1 else 0) + 8 * (if getBit source 251 then 1 else 0)) % 16,
       ((if getBit source 244 then 1 else 0) + 2 * (if getBit source 245 then 1 else 0) +
          4 * (if getBit source 246 then 1 else 0) + 8 * (if getBit source 247 then 1 else 0)) % 16,
       ((if getBit source 252 then 1 else 0) + 2 * (if getBit source 253 then 1 else 0)) % 3) :=
  getColorIndices_of_long source h

/-- Witness for `getColorIndices_long` at the 32-byte digest 0,1,...,31. -/
theorem getColorIndices_long_witness :
    getColorIndices (List.range 32) =
      (((if getBit (List.range 32) 248 then 1 else 0) + 2 * (if getBit (List.range 32) 249 then 1 else 0) +
          4 * (if getBit (List.range 32) 250 then 1 else 0) + 8 * (if getBit (List.range 32) 251 then 1 else 0)) % 16,
       ((if getBit (List.range 32) 244 then 1 else 0) + 2 * (if getBit (List.range 32) 245 then 1 else 0) +
          4 * (if getBit (List.range 32) 246 then 1 else 0) + 8 * (if getBit (List.range 32) 247 then 1 else 0)) % 16,
       ((if getBit (List.range 32) 252 then 1 else 0) + 2 * (if getBit (List.range 32) 253 then 1 else 0)) % 3) :=
  getColorIndices_long (List.range 32) (by decide)

/-- Claim C5: the primary grid cell at (row, col) for col ≤ 2 and its mirror
(row, 4-col) are the digest bit `row*3+col`, and the secondary grid likewise
uses bit `15+row*3+col`; every consumed bit position is below 30 (hence
disjoint from the selector bits 244–255). -/
theorem generatePixelPattern_cells (source : Digest) (r : Fin 5) (c : Fin 3) :
    gridGet (generatePixelPattern source).1 r.1 c.1 = getBit source ((r.1 * 3 + c.1 : Nat) : Int) ∧
    gridGet (generatePixelPattern source).1 r.1 (4 - c.1) = getBit source ((r.1 * 3 + c.1 : Nat) : Int) ∧
    gridGet (generatePixelPattern source).2 r.1 c.1 = getBit source ((15 + r.1 * 3 + c.1 : Nat) : Int) ∧
    gridGet (generatePixelPattern source).2 r.1 (4 - c.1) = getBit source ((15 + r.1 * 3 + c.1 : Nat) : Int) ∧
    r.1 * 3 + c.1 < 30 ∧ 15 + r.1 * 3 + c.1 < 30 := by
  fin_cases r <;> fin_cases c <;>
    refine ⟨?_, ?_, ?_, ?_, by norm_num, by norm_num⟩ <;>
    norm_num [gridGet, generatePixelPattern_fst, generatePixelPattern_snd,
      List.getD_cons_zero, List.getD_cons_succ]

/-- Claim C6: both grids returned by `generatePixelPattern` are horizontally
mirror-symmetric: cell (r, c) equals cell (r, 4-c) for all r, c in 0..4. -/
theorem generatePixelPattern_symmetric (source : Digest) (r c : Fin 5) :
    gridGet (generatePixelPattern source).1 r.1 c.1 =
      gridGet (generatePixelPattern source).1 r.1 (4 - c.1) ∧
    gridGet (generatePixelPattern source).2 r.1 c.1 =
      gridGet (generatePixelPattern source).2 r.1 (4 - c.1) := by
  fin_cases r <;> fin_cases c <;>
    norm_num [gridGet, generatePixelPattern_fst, generatePixelPattern_snd,
      List.getD_cons_zero, List.getD_cons_succ]

/-- Claim C8: two-run non-aliasing.  32-byte digests agreeing on bits 0–29
yield the same pixel pattern, and 32-byte digests agreeing on bits 244–255
yield the same colour indices. -/
theorem bit_non_aliasing (d1 d2 e1 e2 : Digest)
    (_hd1 : d1.length = 32) (_hd2 : d2.length = 32)
    (hpat : ∀ k : Int, 0 ≤ k → k < 30 → getBit d1 k = getBit d2 k)
    (he1 : e1.length = 32) (he2 : e2.length = 32)
    (hsel : ∀ k : Int, 244 ≤ k → k ≤ 255 → getBit e1 k = getBit e2 k) :
    generatePixelPattern d1 = generatePixelPattern d2 ∧
      getColorIndices e1 = getColorIndices e2 := by
  constructor
  · have h1 : (generatePixelPattern d1).1 = (generatePixelPattern d2).1 := by
      rw [generatePixelPattern_fst, generatePixelPattern_fst]
      simp [hpat]
    have h2 : (generatePixelPattern d1).2 = (generatePixelPattern d2).2 := by
      rw [generatePixelPattern_snd, generatePixelPattern_snd]
      simp [hpat]
    exact Prod.ext h1 h2
  · rw [getColorIndices_of_long e1 (by omega), getColorIndices_of_long e2 (by omega)]
    simp [hsel]

/-- Witness for `bit_non_aliasing`: concrete digest pairs that agree on the
pattern bits (resp. the selector bits) but differ elsewhere. -/
theorem bit_non_aliasing_witness :
    generatePixelPattern (List.replicate 32 0) =
        generatePixelPattern (List.replicate 4 0 ++ List.replicate 28 255) ∧
      getColorIndices (List.replicate 32 0) =
        getColorIndices (List.replicate 28 255 ++ List.replicate 4 0) :=
  bit_non_aliasing _ _ _ _ (by decide) (by decide)
    (by intro k h0 h30; interval_cases k <;> decide)
    (by decide) (by decide)
    (by intro k ha hb; interval_cases k <;> decide)

/-- An RGBA colour value, as Go's `color.RGBA`. -/
structure RGBA where
  r : Nat
  g : Nat
  b : Nat
  a : Nat
deriving DecidableEq

/-- The 16-entry primary palette of `createPalette`. -/
def primaryPalette : List RGBA :=
  [⟨0x00, 0xbf, 0x93, 0xff⟩, ⟨0x2d, 0xcc, 0x70, 0xff⟩, ⟨0x42, 0xe4, 0x53, 0xff⟩,
   ⟨0xf1, 0xc4, 0x0f, 0xff⟩, ⟨0xe6, 0x7f, 0x22, 0xff⟩, ⟨0xff, 0x94, 0x4e, 0xff⟩,
   ⟨0xe8, 0x4c, 0x3d, 0xff⟩, ⟨0x35, 0x98, 0xdb, 0xff⟩, ⟨0x9a, 0x59, 0xb5, 0xff⟩,
   ⟨0xef, 0x3e, 0x96, 0xff⟩, ⟨0xdf, 0x21, 0xb9, 0xff⟩, ⟨0x7d, 0xc2, 0xd2, 0xff⟩,
   ⟨0x16, 0xa0, 0x86, 0xff⟩, ⟨0x27, 0xae, 0x61, 0xff⟩, ⟨0x24, 0xc3, 0x33, 0xff⟩,
   ⟨0x1c, 0xab, 0xbb, 0xff⟩]

/-- The 16-entry secondary palette of `createPalette`. -/
def secondaryPalette : List RGBA :=
  [⟨0x34, 0x49, 0x5e, 0xff⟩, ⟨0x95, 0xa5, 0xa5, 0xff⟩, ⟨0xd2, 0x54, 0x00, 0xff⟩,
   ⟨0xc1, 0x39, 0x2b, 0xff⟩, ⟨0x29, 0x7f, 0xb8, 0xff⟩, ⟨0x8d, 0x44, 0xad, 0xff⟩,
   ⟨0xbe, 0x12, 0x7e, 0xff⟩, ⟨0xe5, 0x23, 0x83, 0xff⟩, ⟨0x27, 0xae, 0x61, 0xff⟩,
   ⟨0x24, 0xc3, 0x33, 0xff⟩, ⟨0xd9, 0xd9, 0x21, 0xff⟩, ⟨0xf3, 0x9c, 0x11, 0xff⟩,
   ⟨0xff, 0x55, 0x00, 0xff⟩, ⟨0x1c, 0xab, 0xbb, 0xff⟩, ⟨0x23, 0x23, 0x23, 0xff⟩,
   ⟨0x7e, 0x8c, 0x8d, 0xff⟩]

/-- The light background table of `createPalette` (transparent at position 3). -/
def lightBackgrounds : List RGBA :=
  [⟨255, 255, 255, 255⟩, ⟨243, 245, 247, 255⟩, ⟨236, 240, 241, 255⟩, ⟨0, 0, 0, 0⟩]

/-- The dark background table of `createPalette` (transparent at position 3). -/
def darkBackgrounds : List RGBA :=
  [⟨30, 30, 30, 255⟩, ⟨45, 62, 80, 255⟩, ⟨57, 57, 57, 255⟩, ⟨0, 0, 0, 0⟩]

/-- Embedding of `createPalette`: the 4-entry palette in the exact order
background, primary, secondary, transparent.  A Go slice-index panic on an
out-of-range palette index is modelled by `none`. -/
def createPalette (primaryIdx secondaryIdx bgIdx : Nat) (darkMode : Bool) :
    Option (List RGBA) :=
  match (if darkMode then darkBackgrounds else lightBackgrounds)[bgIdx]?,
      primaryPalette[primaryIdx]?, secondaryPalette[secondaryIdx]? with
  | some bg, some p, some s => some [bg, p, s, ⟨0, 0, 0, 0⟩]
  | _, _, _ => none

theorem createPalette_isSome_of_bounds (p s bg : Nat) (dm : Bool)
    (hp : p < 16) (hs : s < 16) (hbg : bg < 4) :
    (createPalette p s bg dm).isSome := by
  have hpp : p < primaryPalette.length := by simpa [primaryPalette] using hp
  have hss : s < secondaryPalette.length := by simpa [secondaryPalette] using hs
  unfold createPalette
  cases dm
  · have hb : bg < lightBackgrounds.length := by simpa [lightBackgrounds] using hbg
    simp only [Bool.false_eq_true, if_false]
    rw [List.getElem?_eq_getElem hb, List.getElem?_eq_getElem hpp, List.getElem?_eq_getElem hss]
    rfl
  · have hb : bg < darkBackgrounds.length := by simpa [darkBackgrounds] using hbg
    simp only [if_true]
    rw [List.getElem?_eq_getElem hb, List.getElem?_eq_getElem hpp, List.getElem?_eq_getElem hss]
    rfl

/-- Claim C9: for any digest, the colour indices are in range (primary and
secondary below 16, background variant below 3), so the palette lookups of
`createPalette` with these indices all succeed. -/
theorem getColorIndices_in_range (source : Digest) (darkMode : Bool) :
    (getColorIndices source).1 < 16 ∧ (getColorIndices source).2.1 < 16 ∧
      (getColorIndices source).2.2 < 3 ∧
      (createPalette (getColorIndices source).1 (getColorIndices source).2.1
        (getColorIndices source).2.2 darkMode).isSome := by
  have hb : (getColorIndices source).1 < 16 ∧ (getColorIndices source).2.1 < 16 ∧
      (getColorIndices source).2.2 < 3 := by
    by_cases h : source.length < 32
    · rw [getColorIndices_of_short source h]
      refine ⟨by norm_num, by norm_num, by norm_num⟩
    · rw [getColorIndices_of_long source (by omega)]
      exact ⟨Nat.mod_lt _ (by norm_num), Nat.mod_lt _ (by norm_num),
        Nat.mod_lt _ (by norm_num)⟩
  exact ⟨hb.1, hb.2.1, hb.2.2,
    createPalette_isSome_of_bounds _ _ _ darkMode hb.1 hb.2.1 (by omega)⟩

/-- Claim C2 (amended): `getBit` is total and returns `false` on an empty
digest, a negative index, or an out-of-range byte index, and otherwise the
bit `(digest[n/8] >> (n%8)) & 1`; `getByte` returns 0 on an empty digest
and, for nonnegative `n`, the wrapped byte `digest[n mod len]`.  On a
nonempty digest with negative `n`, `getByte` panics exactly when Go's
truncated `n % len` is negative (i.e. `n` is not a multiple of the
length), and returns `digest[0]` when `n % len` is zero. -/
theorem accessors_total (source : Digest) (n : Int) :
    (source = [] ∨ n < 0 ∨ source.length ≤ n.toNat / 8 → getBit source n = false) ∧
    (source ≠ [] → 0 ≤ n → n.toNat / 8 < source.length →
      getBit source n = (((source.getD (n.toNat / 8) 0) >>> (n.toNat % 8)) &&& 1 == 1)) ∧
    (source = [] → getByte source n = some 0) ∧
    (source ≠ [] → 0 ≤ n →
      getByte source n = some (source.getD (n.toNat % source.length) 0)) ∧
    (source ≠ [] → Int.tmod n source.length < 0 → getByte source n = none) ∧
    (source ≠ [] → Int.tmod n source.length = 0 →
      getByte source n = some (source.getD 0 0)) := by
  refine ⟨?_, ?_, ?_, ?_, ?_, ?_⟩
  · intro h
    unfold getBit
    rcases h with h | h | h
    · rw [if_pos (Or.inl (by simp [h]))]
    · rw [if_pos (Or.inr h)]
    · by_cases h0 : source.length = 0 ∨ n < 0
      · rw [if_pos h0]
      · rw [if_neg h0, if_pos h]
  · intro h1 h2 h3
    unfold getBit
    have hne : ¬(source.length = 0 ∨ n < 0) := by
      push_neg
      exact ⟨fun hl => h1 (List.length_eq_zero.mp hl), h2⟩
    rw [if_neg hne, if_neg (not_le.mpr h3)]
  · intro h
    unfold getByte
    rw [if_pos (by simp [h])]
  · intro h1 h2
    have hl : 0 < source.length := List.length_pos.mpr h1
    unfold getByte
    rw [if_neg (by omega)]
    obtain ⟨m, rfl⟩ := Int.eq_ofNat_of_zero_le h2
    have ht : Int.tmod ((m : Nat) : Int) ((source.length : Nat) : Int) =
        ((m % source.length : Nat) : Int) := rfl
    rw [ht, if_pos ⟨by exact_mod_cast Nat.zero_le _, by exact_mod_cast Nat.mod_lt m hl⟩]
    simp
    rw [show (((m : Int) % ((source.length : Nat) : Int)).toNat = m % source.length) from by
      omega]
  · intro h1 hneg
    have hl : 0 < source.length := List.length_pos.mpr h1
    unfold getByte
    rw [if_neg (by omega), if_neg (fun hc => absurd hneg (not_lt.mpr hc.1))]
  · intro h1 hzero
    have hl : 0 < source.length := List.length_pos.mpr h1
    unfold getByte
    rw [if_neg (by omega), hzero,
      if_pos ⟨le_refl (0 : Int), by exact_mod_cast hl⟩]
    simp

/-- Witness for `accessors_total` at the digest [7, 8]: index 3 exercises
the in-range bit and the wrapped byte at 3 mod 2 = 1, and index -2 (a
negative multiple of the length) exercises the panic-free negative case
returning byte 0. -/
theorem accessors_total_witness :
    getBit [7, 8] (3 : Int) =
        ((((([7, 8] : Digest).getD ((3 : Int).toNat / 8) 0) >>> ((3 : Int).toNat % 8)) &&& 1 == 1)) ∧
      getByte [7, 8] (3 : Int) =
        some (([7, 8] : Digest).getD ((3 : Int).toNat % ([7, 8] : Digest).length) 0) ∧
      getByte [7, 8] (-2 : Int) = some (([7, 8] : Digest).getD 0 0) :=
  ⟨(accessors_total [7, 8] 3).2.1 (by decide) (by decide) (by decide),
   (accessors_total [7, 8] 3).2.2.2.1 (by decide) (by decide),
   (accessors_total [7, 8] (-2)).2.2.2.2.2 (by decide) (by decide)⟩

/-- Counterexample for claim C2 as stated: `getByte` is not total on every
integer `n`.  At the nonempty digest [7, 8] and n = -1, Go computes
`-1 % 2 = -1` (truncated modulus) and indexing the slice at -1 panics,
modelled as `none` — no wrapped byte is returned. -/
theorem getByte_negative_index :
    getByte [7, 8] (-1 : Int) = none := by
  decide

/-- The (row, col) pairs visited by the 5×5 painting loops of the
compositors: rows 0..4, columns 0..4, row-major. -/
def spriteCells : List (Nat × Nat) :=
  (List.range 5).flatMap fun row => (List.range 5).map fun col => (row, col)

/-- Membership of pixel (x, y) in the filled square of stencil cell
(row, col): the Go inner loops run x from `col*pixelSize+margin` and y from
`row*pixelSize+margin`, each for `pixelSize` pixels, clipped to the canvas. -/
abbrev inSquare (size pixelSize margin row col x y : Nat) : Prop :=
  col * pixelSize + margin ≤ x ∧ x < col * pixelSize + margin + pixelSize ∧
  row * pixelSize + margin ≤ y ∧ y < row * pixelSize + margin + pixelSize ∧
  x < size ∧ y < size

/-- The effect of the inner double loop filling one stencil cell's square
with colour index `v` over a current raster `img`. -/
def paintSquare (size pixelSize margin v row col : Nat) (img : Nat → Nat → Nat) :
    Nat → Nat → Nat :=
  fun px py => if inSquare size pixelSize margin row col px py then v else img px py

/-- Painting pass over a list of stencil cells: each cell whose layer entry
`layer[row*5+col]` is set has its square filled with `v`. -/
def paintFold (size pixelSize margin : Nat) (layer : List Bool) (v : Nat)
    (cells : List (Nat × Nat)) (img : Nat → Nat → Nat) : Nat → Nat → Nat :=
  cells.foldl
    (fun acc rc =>
      if gridGet layer rc.1 rc.2 then paintSquare size pixelSize margin v rc.1 rc.2 acc else acc)
    img

/-- One full painting layer of the compositors (all 25 stencil cells). -/
def paintLayer (size pixelSize margin : Nat) (layer : List Bool) (v : Nat)
    (img : Nat → Nat → Nat) : Nat → Nat → Nat :=
  paintFold size pixelSize margin layer v spriteCells img

/-- The colour-index raster of `GenerateIndexed`: canvas filled with
background index 0, then the secondary layer painted with index 2, then the
primary layer painted with index 1 on top.  `pixelSize = size/8` and
`margin = (size - pixelSize*5)/2` as in the Go code. -/
def generateIndexedIdx (source : Digest) (size : Nat) : Nat → Nat → Nat :=
  paintLayer size (size / 8) ((size - size / 8 * 5) / 2) (generatePixelPattern source).1 1
    (paintLayer size (size / 8) ((size - size / 8 * 5) / 2) (generatePixelPattern source).2 2
      (fun _ _ => 0))

/-- The palette built by `GenerateIndexed` from the digest's colour indices. -/
def generateIndexedPalette (source : Digest) (darkMode : Bool) : Option (List RGBA) :=
  createPalette (getColorIndices source).1 (getColorIndices source).2.1
    (getColorIndices source).2.2 darkMode

/-- The colour-index raster of `GenerateForExportOptimized`: as
`GenerateIndexed`, except the background fill uses index 3 when a
transparent background is requested. -/
def generateForExportOptimizedIdx (source : Digest) (size : Nat) (transparent : Bool) :
    Nat → Nat → Nat :=
  paintLayer size (size / 8) ((size - size / 8 * 5) / 2) (generatePixelPattern source).1 1
    (paintLayer size (size / 8) ((size - size / 8 * 5) / 2) (generatePixelPattern source).2 2
      (fun _ _ => if transparent then 3 else 0))

/-- The palette built by `GenerateForExportOptimized`: always light mode,
with background slot index 3 (transparent) when requested. -/
def generateForExportOptimizedPalette (source : Digest) (transparent : Bool) :
    Option (List RGBA) :=
  createPalette (getColorIndices source).1 (getColorIndices source).2.1
    (if transparent then 3 else (getColorIndices source).2.2) false

theorem paintFold_cons (size ps m v : Nat) (layer : List Bool) (rc : Nat × Nat)
    (cs : List (Nat × Nat)) (img : Nat → Nat → Nat) :
    paintFold size ps m layer v (rc :: cs) img =
      paintFold size ps m layer v cs
        (if gridGet layer rc.1 rc.2 then paintSquare size ps m v rc.1 rc.2 img else img) :=
  rfl

theorem paintFold_or (size ps m v : Nat) (layer : List Bool) (cells : List (Nat × Nat)) :
    ∀ (img : Nat → Nat → Nat) (x y : Nat),
      paintFold size ps m layer v cells img x y = v ∨
        paintFold size ps m layer v cells img x y = img x y := by
  induction cells with
  | nil => intro img x y; right; rfl
  | cons rc cs ih =>
    intro img x y
    rw [paintFold_cons]
    rcases ih (if gridGet layer rc.1 rc.2 then paintSquare size ps m v rc.1 rc.2 img else img)
        x y with h | h
    · left; exact h
    · rw [h]
      cases hg : gridGet layer rc.1 rc.2
      · right; simp [hg]
      · by_cases hin : inSquare size ps m rc.1 rc.2 x y
        · left; simp [hg, paintSquare, hin]
        · right; simp [hg, paintSquare, hin]

theorem paintFold_covered (size ps m v : Nat) (layer : List Bool) (x y : Nat) :
    ∀ (cells : List (Nat × Nat)) (img : Nat → Nat → Nat),
      (∃ rc ∈ cells, gridGet layer rc.1 rc.2 = true ∧ inSquare size ps m rc.1 rc.2 x y) →
      paintFold size ps m layer v cells img x y = v := by
  intro cells
  induction cells with
  | nil => intro img h; simp at h
  | cons rc cs ih =>
    intro img h
    rw [paintFold_cons]
    rcases h with ⟨rc', hmem, hg, hin⟩
    rcases List.mem_cons.mp hmem with heq | hmem'
    · subst heq
      rcases paintFold_or size ps m v layer cs
          (if gridGet layer rc'.1 rc'.2 then paintSquare size ps m v rc'.1 rc'.2 img else img)
          x y with h1 | h1
      · exact h1
      · rw [h1]
        simp [hg, paintSquare, hin]
    · exact ih _ ⟨rc', hmem', hg, hin⟩

theorem paintFold_clean (size ps m v : Nat) (layer : List Bool) (x y : Nat) :
    ∀ (cells : List (Nat × Nat)) (img : Nat → Nat → Nat),
      (∀ rc ∈ cells, ¬(gridGet layer rc.1 rc.2 = true ∧ inSquare size ps m rc.1 rc.2 x y)) →
      paintFold size ps m layer v cells img x y = img x y := by
  intro cells
  induction cells with
  | nil => intro img _; rfl
  | cons rc cs ih =>
    intro img h
    rw [paintFold_cons]
    have hstep : (if gridGet layer rc.1 rc.2 then paintSquare size ps m v rc.1 rc.2 img else img)
        x y = img x y := by
      cases hg : gridGet layer rc.1 rc.2
      · simp [hg]
      · have hni : ¬ inSquare size ps m rc.1 rc.2 x y := fun hin =>
          h rc (List.mem_cons_self rc cs) ⟨hg, hin⟩
        simp [hg, paintSquare, hni]
    rw [ih _ fun rc' hrc' => h rc' (List.mem_cons_of_mem rc hrc'), hstep]

theorem mem_spriteCells (rc : Nat × Nat) : rc ∈ spriteCells ↔ rc.1 < 5 ∧ rc.2 < 5 := by
  obtain ⟨r, c⟩ := rc
  simp [spriteCells, List.mem_flatMap, List.mem_map, List.mem_range]

/-- Claim C7: each pixel of the `GenerateIndexed` raster is 1 if it lies in
the square of a stencil cell whose primary layer is set (primary wins over
secondary), else 2 if it lies in the square of a cell whose secondary layer
is set, else it keeps the background index 0. -/
theorem generateIndexed_pixel_value (source : Digest) (size x y : Nat) :
    generateIndexedIdx source size x y =
      if ∃ r : Fin 5, ∃ c : Fin 5,
          gridGet (generatePixelPattern source).1 r.1 c.1 = true ∧
            inSquare size (size / 8) ((size - size / 8 * 5) / 2) r.1 c.1 x y then 1
      else if ∃ r : Fin 5, ∃ c : Fin 5,
          gridGet (generatePixelPattern source).2 r.1 c.1 = true ∧
            inSquare size (size / 8) ((size - size / 8 * 5) / 2) r.1 c.1 x y then 2
      else 0 := by
  simp only [generateIndexedIdx, paintLayer]
  by_cases hp : ∃ r : Fin 5, ∃ c : Fin 5,
      gridGet (generatePixelPattern source).1 r.1 c.1 = true ∧
        inSquare size (size / 8) ((size - size / 8 * 5) / 2) r.1 c.1 x y
  · rw [if_pos hp]
    obtain ⟨r, c, hg, hin⟩ := hp
    exact paintFold_covered size (size / 8) ((size - size / 8 * 5) / 2) 1
      (generatePixelPattern source).1 x y spriteCells _
      ⟨(r.1, c.1), (mem_spriteCells _).mpr ⟨r.isLt, c.isLt⟩, hg, hin⟩
  · rw [if_neg hp]
    rw [paintFold_clean size (size / 8) ((size - size / 8 * 5) / 2) 1
      (generatePixelPattern source).1 x y spriteCells _
      (fun rc hrc hcon => hp ⟨⟨rc.1, ((mem_spriteCells rc).mp hrc).1⟩,
        ⟨rc.2, ((mem_spriteCells rc).mp hrc).2⟩, hcon.1, hcon.2⟩)]
    by_cases hs : ∃ r : Fin 5, ∃ c : Fin 5,
        gridGet (generatePixelPattern source).2 r.1 c.1 = true ∧
          inSquare size (size / 8) ((size - size / 8 * 5) / 2) r.1 c.1 x y
    · rw [if_pos hs]
      obtain ⟨r, c, hg, hin⟩ := hs
      exact paintFold_covered size (size / 8) ((size - size / 8 * 5) / 2) 2
        (generatePixelPattern source).2 x y spriteCells _
        ⟨(r.1, c.1), (mem_spriteCells _).mpr ⟨r.isLt, c.isLt⟩, hg, hin⟩
    · rw [if_neg hs]
      exact paintFold_clean size (size / 8) ((size - size / 8 * 5) / 2) 2
        (generatePixelPattern source).2 x y spriteCells _
        (fun rc hrc hcon => hs ⟨⟨rc.1, ((mem_spriteCells rc).mp hrc).1⟩,
          ⟨rc.2, ((mem_spriteCells rc).mp hrc).2⟩, hcon.1, hcon.2⟩)

/-- Claim C10: for any digest and size, `GenerateIndexed` with
darkMode=false and `GenerateForExportOptimized` with transparent=false build
the same palette and assign the same colour index to every pixel. -/
theorem export_refines_indexed (source : Digest) (size x y : Nat) :
    generateIndexedPalette source false = generateForExportOptimizedPalette source false ∧
      generateIndexedIdx source size x y =
        generateForExportOptimizedIdx source size false x y :=
  ⟨rfl, rfl⟩

/-- Embedding of the writing loop of `writeFaceFile`: starting at `pos`,
repeatedly emit a newline, a single leading space, and the next chunk
`b64[pos:pos+chunk]` where `chunk` is 75 or whatever remains, until the
stream is exhausted. -/
def writeFaceLoop (b64 : List Char) (pos : Nat) : List Char :=
  if h : pos < b64.length then
    ('\n' :: ' ' ::
        (b64.drop pos).take (if b64.length - pos < 75 then b64.length - pos else 75)) ++
      writeFaceLoop b64 (pos + (if b64.length - pos < 75 then b64.length - pos else 75))
  else []
termination_by b64.length - pos
decreasing_by
  split <;> omega

/-- Embedding of the text written by `writeFaceFile`: the literal tag
`Face:`, then — for streams longer than 72 characters — a space and the
first 70 characters followed by the wrapping loop from position 70,
otherwise a space and the whole stream; always terminated by a newline. -/
def writeFaceFile (b64 : List Char) : List Char :=
  "Face:".toList ++
    (if b64.length > 72 then (' ' :: b64.take 70) ++ writeFaceLoop b64 70
     else ' ' :: b64) ++ ['\n']

/-- Specification-side continuation format, written after the claim's words:
continuation lines each consist of a newline, a single leading space, and up
to 75 further characters, until the stream is exhausted. -/
def faceContinuation (cs : List Char) : List Char :=
  if h : cs = [] then []
  else ('\n' :: ' ' :: cs.take 75) ++ faceContinuation (cs.drop 75)
termination_by cs.length
decreasing_by
  have hlen : cs.length ≠ 0 := fun h0 => h (List.length_eq_zero.mp h0)
  simp [List.length_drop]
  omega

theorem writeFaceLoop_eq_faceContinuation :
    ∀ (fuel : Nat) (b64 : List Char) (pos : Nat), b64.length - pos ≤ fuel →
      writeFaceLoop b64 pos = faceContinuation (b64.drop pos) := by
  intro fuel
  induction fuel with
  | zero =>
    intro b64 pos h
    rw [writeFaceLoop, dif_neg (by omega)]
    rw [List.drop_eq_nil_of_le (by omega)]
    rw [faceContinuation, dif_pos rfl]
  | succ n ih =>
    intro b64 pos h
    by_cases hlt : pos < b64.length
    · rw [writeFaceLoop, dif_pos hlt]
      have hne : ¬(b64.drop pos = []) := by
        intro h0
        have := congrArg List.length h0
        simp [List.length_drop] at this
        omega
      rw [faceContinuation, dif_neg hne]
      by_cases hrem : b64.length - pos < 75
      · simp only [if_pos hrem]
        have htake : (b64.drop pos).take (b64.length - pos) = (b64.drop pos).take 75 := by
          rw [List.take_of_length_le (by simp [List.length_drop]),
            List.take_of_length_le (by simp [List.length_drop]; omega)]
        have hdropL : b64.drop (pos + (b64.length - pos)) = ([] : List Char) :=
          List.drop_eq_nil_of_le (by omega)
        have hdropR : (b64.drop pos).drop 75 = ([] : List Char) :=
          List.drop_eq_nil_of_le (by simp [List.length_drop]; omega)
        rw [ih b64 (pos + (b64.length - pos)) (by omega), hdropL, hdropR, htake]
      · simp only [if_neg hrem]
        have hdrop : b64.drop (pos + 75) = (b64.drop pos).drop 75 := by
          rw [List.drop_drop]
        rw [ih b64 (pos + 75) (by omega), hdrop]
    · rw [writeFaceLoop, dif_neg hlt]
      rw [List.drop_eq_nil_of_le (by omega)]
      rw [faceContinuation, dif_pos rfl]

/-- Claim C3: `writeFaceFile` produces exactly the tag `Face:`, a single
space, then the whole stream when it has at most 72 characters, otherwise
the first 70 characters followed by continuation lines of a newline, one
leading space and up to 75 further characters until the stream is
exhausted; always terminated by a trailing newline. -/
theorem writeFaceFile_format (b64 : List Char) :
    writeFaceFile b64 =
      "Face:".toList ++ [' '] ++
        (if b64.length ≤ 72 then b64
         else b64.take 70 ++ faceContinuation (b64.drop 70)) ++ ['\n'] := by
  unfold writeFaceFile
  by_cases h : b64.length > 72
  · rw [if_pos h, if_neg (by omega)]
    rw [writeFaceLoop_eq_faceContinuation (b64.length - 70) b64 70 (by omega)]
    simp
  · rw [if_neg h, if_pos (by omega)]
    simp

end Identicons
